import Mathlib

/-!
# trackedclient: a tracking decorator over a Kubernetes client

A shallow embedding of `client.go`.  The wrapper `trackedClient` embeds an
underlying `client.WithWatch`, remembers an unstructured copy of every object
it creates, and `DeleteAllTracked` deletes all of them, each guarded by a UID
precondition.

The underlying client is an external collaborator.  It is embedded as a record
of functions over an explicit client state `σ` (the remote store as seen through
the client), so every result below holds for every underlying client.  The
mutex of the Go code serialises `Create` and `DeleteAllTracked`; the embedding
is the sequential semantics of one call at a time.
-/

namespace trackedclient

/-! ## Go errors -/

/-- A Go `error` value that is not nil.  `leaf` is an error without an `Unwrap`
method, `wrapError` is the `*fmt.wrapError` built by `fmt.Errorf` with one `%w`
verb: it stores the formatted message and the wrapped error. -/
inductive GoError where
  | leaf (msg : String)
  | wrapError (msg : String) (err : GoError)
deriving DecidableEq, Repr

/-- Method `Error()` of an error. -/
def GoError.Error : GoError → String
  | .leaf msg => msg
  | .wrapError msg _ => msg

/-- Function `errors.Unwrap`: the wrapped error, if the error wraps one. -/
def GoError.Unwrap : GoError → Option GoError
  | .leaf _ => none
  | .wrapError _ err => some err

/-- The call `fmt.Errorf("%w; %s", e, s)`: the message is the message of `e`,
then `"; "`, then `s`; the result wraps `e`. -/
def Errorf_w_s (e : GoError) (s : String) : GoError :=
  .wrapError (e.Error ++ "; " ++ s) e

/-- Unwrap an error `n` times (`errors.Unwrap` iterated). -/
def unwrapN : Nat → GoError → Option GoError
  | 0, e => some e
  | n + 1, e => (e.Unwrap).bind (unwrapN n)

/-! ## Unstructured documents -/

/-- A value of an unstructured document (`interface{}` as produced by
`ToUnstructured`): JSON scalars, lists and string-keyed maps.  A float is kept
as its bit pattern; no operation below looks at numbers. -/
inductive Value where
  | null
  | bool (b : Bool)
  | int (i : Int)
  | float (bits : Nat)
  | str (s : String)
  | list (xs : List Value)
  | map (fields : List (String × Value))

/-- A Go `map[string]interface{}` as an association list with unique keys. -/
abbrev Object := List (String × Value)

/-- Map read `m[k]`. -/
def mapGet (k : String) : Object → Option Value
  | [] => none
  | (k1, v) :: rest => if k1 = k then some v else mapGet k rest

/-- Map write `m[k] = v`: replaces the value of an existing key, adds the key
otherwise. -/
def mapSet (k : String) (v : Value) : Object → Object
  | [] => [(k, v)]
  | (k1, v1) :: rest => if k1 = k then (k1, v) :: rest else (k1, v1) :: mapSet k v rest

/-- The type `unstructured.Unstructured`. -/
structure Unstructured where
  Object : Object

/-- Method `SetKind`: `setNestedField(kind, "kind")`. -/
def Unstructured.SetKind (u : Unstructured) (kind : String) : Unstructured :=
  { Object := mapSet "kind" (.str kind) u.Object }

/-- Method `SetAPIVersion`: `setNestedField(version, "apiVersion")`. -/
def Unstructured.SetAPIVersion (u : Unstructured) (version : String) : Unstructured :=
  { Object := mapSet "apiVersion" (.str version) u.Object }

/-- Helper `getNestedString(obj, f1, f2)` for a path of two fields: the string at
that path, or `""` when the path is absent or does not lead to a string. -/
def getNestedString2 (obj : Object) (f1 f2 : String) : String :=
  match mapGet f1 obj with
  | some (.map m) =>
    match mapGet f2 m with
    | some (.str s) => s
    | _ => ""
  | _ => ""

/-- Helper `getNestedString(obj, f)` for a path of one field. -/
def getNestedString1 (obj : Object) (f : String) : String :=
  match mapGet f obj with
  | some (.str s) => s
  | _ => ""

/-- Method `GetUID`: the string at `metadata.uid`. -/
def Unstructured.GetUID (u : Unstructured) : String :=
  getNestedString2 u.Object "metadata" "uid"

/-- Method `GetKind`: the string at `kind`. -/
def Unstructured.GetKind (u : Unstructured) : String :=
  getNestedString1 u.Object "kind"

/-- Method `GetAPIVersion`: the string at `apiVersion`. -/
def Unstructured.GetAPIVersion (u : Unstructured) : String :=
  getNestedString1 u.Object "apiVersion"

/-! ## Group, version, kind -/

/-- The type `schema.GroupVersionKind`. -/
structure GroupVersionKind where
  Group : String
  Version : String
  Kind : String
deriving DecidableEq, Repr

/-- The type `schema.GroupKind`. -/
structure GroupKind where
  Group : String
  Kind : String
deriving DecidableEq, Repr

/-- The type `schema.GroupVersion`. -/
structure GroupVersion where
  Group : String
  Version : String
deriving DecidableEq, Repr

/-- Method `GroupVersionKind.GroupKind`. -/
def GroupVersionKind.GroupKind (gvk : GroupVersionKind) : GroupKind :=
  { Group := gvk.Group, Kind := gvk.Kind }

/-- Method `GroupVersionKind.GroupVersion`. -/
def GroupVersionKind.GroupVersion (gvk : GroupVersionKind) : GroupVersion :=
  { Group := gvk.Group, Version := gvk.Version }

/-- Method `GroupVersion.String`: `group/version`, or the version alone for the
core group. -/
def GroupVersion.String (gv : GroupVersion) : String :=
  if gv.Group.length > 0 then gv.Group ++ "/" ++ gv.Version else gv.Version

/-! ## Options -/

/-- The value `client.Preconditions`: optional UID and resource version. -/
structure Preconditions where
  UID : Option String
  ResourceVersion : Option String
deriving DecidableEq, Repr

/-- A `client.DeleteOption`. -/
inductive DeleteOption where
  | GracePeriodSeconds (n : Int)
  | Preconditions (p : Preconditions)
  | PropagationPolicy (policy : String)
  | DryRunAll
deriving DecidableEq, Repr

/-- A `client.CreateOption`. -/
inductive CreateOption where
  | DryRunAll
  | FieldOwner (owner : String)
deriving DecidableEq, Repr

/-! ## The underlying client and the wrapper -/

/-- What the wrapper calls: `Create` and `Delete` of the embedded
`client.WithWatch` over the client state `σ`, the converter
`runtime.DefaultUnstructuredConverter.ToUnstructured`, and
`apiutil.GVKForObject` against the scheme of the client.  `Create` returns the
object as the server populated it; `GVKForObject` returns both of its results,
as in Go. -/
structure Underlying (σ Obj Ctx : Type) where
  Create : Ctx → σ → Obj → List CreateOption → σ × Obj × Option GoError
  Delete : Ctx → σ → Unstructured → List DeleteOption → σ × Option GoError
  ToUnstructured : Obj → Except GoError Object
  GVKForObject : Obj → GroupVersionKind × Option GoError

/-- The struct `trackedClient`: the embedded client and the tracker slice. -/
structure trackedClient (σ : Type) where
  WithWatch : σ
  tracker : List Unstructured

/-- Result of the wrapper's `Create`: the wrapper afterwards, the object as
populated in place, and the returned error (`none` is nil). -/
structure CreateResult (σ Obj : Type) where
  client : trackedClient σ
  obj : Obj
  err : Option GoError

/-- Method `trackedClient.Create`. -/
def Create {σ Obj Ctx : Type} (env : Underlying σ Obj Ctx) (c : trackedClient σ) (ctx : Ctx)
    (obj : Obj) (opts : List CreateOption) : CreateResult σ Obj :=
  match env.Create ctx c.WithWatch obj opts with
  | (w, obj1, some err) => { client := { c with WithWatch := w }, obj := obj1, err := some err }
  | (w, obj1, none) =>
    -- Create an unstructured copy of the object
    match env.ToUnstructured obj1 with
    | .error err => { client := { c with WithWatch := w }, obj := obj1, err := some err }
    | .ok objMap =>
      let u : Unstructured := { Object := objMap }
      -- the error result of GVKForObject is assigned and not looked at
      let gvk := (env.GVKForObject obj1).1
      let u := u.SetKind gvk.GroupKind.Kind
      let u := u.SetAPIVersion gvk.GroupVersion.String
      { client := { WithWatch := w, tracker := c.tracker ++ [u] }, obj := obj1, err := none }

/-- One call of the underlying `Delete` as seen from outside: its object and
option arguments and the error it returned. -/
structure DeleteCall where
  obj : Unstructured
  opts : List DeleteOption
  err : Option GoError

/-- The variables of the loop of `DeleteAllTracked`: the underlying client, the
`opts` slice, the `errs` slice, and the record of the underlying `Delete`
calls made so far. -/
structure LoopState (σ : Type) where
  WithWatch : σ
  opts : List DeleteOption
  errs : List GoError
  calls : List DeleteCall

/-- The body of `for i := range c.tracker` for the entry `obj`. -/
def loopBody {σ Obj Ctx : Type} (env : Underlying σ Obj Ctx) (ctx : Ctx) (st : LoopState σ)
    (obj : Unstructured) : LoopState σ :=
  let uid := obj.GetUID
  let preconditions := DeleteOption.Preconditions { UID := some uid, ResourceVersion := none }
  let opts := st.opts ++ [preconditions]
  match env.Delete ctx st.WithWatch obj opts with
  | (w, some err) =>
    { WithWatch := w, opts := opts, errs := st.errs ++ [err],
      calls := st.calls ++ [{ obj := obj, opts := opts, err := some err }] }
  | (w, none) =>
    { WithWatch := w, opts := opts, errs := st.errs,
      calls := st.calls ++ [{ obj := obj, opts := opts, err := none }] }

/-- The loop `for i := range c.tracker`. -/
def deleteLoop {σ Obj Ctx : Type} (env : Underlying σ Obj Ctx) (ctx : Ctx) :
    List Unstructured → LoopState σ → LoopState σ
  | [], st => st
  | obj :: rest, st => deleteLoop env ctx rest (loopBody env ctx st obj)

/-- The loop `for e := 1; e < len(errs); e++` that chains the errors. -/
def chainErrors : GoError → List GoError → GoError
  | totalErr, [] => totalErr
  | totalErr, e :: rest => chainErrors (Errorf_w_s totalErr e.Error) rest

/-- The tail of `DeleteAllTracked` after the tracker is reset: nil for no
error, the chained error otherwise. -/
def totalError : List GoError → Option GoError
  | [] => none
  | e0 :: rest => some (chainErrors e0 rest)

/-- Result of `DeleteAllTracked`: the wrapper afterwards, the returned error,
and the underlying `Delete` calls it made, in order. -/
structure DeleteResult (σ : Type) where
  client : trackedClient σ
  err : Option GoError
  calls : List DeleteCall

/-- Method `trackedClient.DeleteAllTracked`. -/
def DeleteAllTracked {σ Obj Ctx : Type} (env : Underlying σ Obj Ctx) (c : trackedClient σ)
    (ctx : Ctx) (opts : List DeleteOption) : DeleteResult σ :=
  let st := deleteLoop env ctx c.tracker
    { WithWatch := c.WithWatch, opts := opts, errs := [], calls := [] }
  { client := { WithWatch := st.WithWatch, tracker := [] },
    err := totalError st.errs,
    calls := st.calls }

/-! ## Observations used by the statements -/

/-- The `Preconditions` value carried by an option, if the option is one. -/
def DeleteOption.asPreconditions : DeleteOption → Option trackedclient.Preconditions
  | .Preconditions p => some p
  | _ => none

/-- The precondition in effect for an option list: options are applied in
order and every `Preconditions` option overwrites the field, so the last one
of the list stays. -/
def lastPrecondition (opts : List DeleteOption) : Option Preconditions :=
  (opts.filterMap DeleteOption.asPreconditions).getLast?

/-- The option `DeleteAllTracked` builds for a snapshot. -/
def preconditionOf (obj : Unstructured) : DeleteOption :=
  .Preconditions { UID := some obj.GetUID, ResourceVersion := none }

/-- The snapshot `Create` appends for a populated object: the converted
document with kind and apiVersion set from `GVKForObject`; `none` when the
conversion fails. -/
def snapshotOf {σ Obj Ctx : Type} (env : Underlying σ Obj Ctx) (obj : Obj) :
    Option Unstructured :=
  match env.ToUnstructured obj with
  | .error _ => none
  | .ok objMap =>
    let gvk := (env.GVKForObject obj).1
    some (((Unstructured.mk objMap).SetKind gvk.GroupKind.Kind).SetAPIVersion
      gvk.GroupVersion.String)

/-- A sequence of `Create` calls on one wrapper: the wrapper afterwards and,
per call, the populated object and the returned error. -/
def runCreates {σ Obj Ctx : Type} (env : Underlying σ Obj Ctx) (ctx : Ctx) :
    trackedClient σ → List (Obj × List CreateOption) →
      trackedClient σ × List (Obj × Option GoError)
  | c, [] => (c, [])
  | c, (obj, opts) :: rest =>
    let r := Create env c ctx obj opts
    let out := runCreates env ctx r.client rest
    (out.1, (r.obj, r.err) :: out.2)

/-- Replaying a list of `Delete` calls on the underlying client alone: the
client afterwards and the error of each call. -/
def replayDeletes {σ Obj Ctx : Type} (env : Underlying σ Obj Ctx) (ctx : Ctx) :
    σ → List (Unstructured × List DeleteOption) → σ × List (Option GoError)
  | w, [] => (w, [])
  | w, (obj, opts) :: rest =>
    let r := env.Delete ctx w obj opts
    let out := replayDeletes env ctx r.1 rest
    (out.1, r.2 :: out.2)

/-- The separator `"; "` and the message, for each error of a list in order. -/
def joinedTail : List GoError → String
  | [] => ""
  | e :: rest => "; " ++ e.Error ++ joinedTail rest

/-- The message the specification gives for the combined error: the first
message, then `"; "` and the message of every later error, in order. -/
def joinedMessage (e1 : GoError) (rest : List GoError) : String :=
  e1.Error ++ joinedTail rest

/-! ## Keys of stored objects -/

/-- What identifies an object in the store: apiVersion, kind, namespace, name. -/
structure Key where
  APIVersion : String
  Kind : String
  Namespace : String
  Name : String
deriving DecidableEq, Repr

/-- Method `GetNamespace` of `Unstructured`. -/
def Unstructured.GetNamespace (u : Unstructured) : String :=
  getNestedString2 u.Object "metadata" "namespace"

/-- Method `GetName` of `Unstructured`. -/
def Unstructured.GetName (u : Unstructured) : String :=
  getNestedString2 u.Object "metadata" "name"

/-- The key under which a `Delete` of an unstructured object looks. -/
def keyOf (u : Unstructured) : Key :=
  { APIVersion := u.GetAPIVersion, Kind := u.GetKind, Namespace := u.GetNamespace,
    Name := u.GetName }

/-- The key under which a `Get` for a typed object looks: the group/version and
kind the scheme gives for the object, and `client.ObjectKeyFromObject`. -/
def objKey {σ Obj Ctx : Type} (env : Underlying σ Obj Ctx) (GetNamespace GetName : Obj → String)
    (obj : Obj) : Key :=
  { APIVersion := (env.GVKForObject obj).1.GroupVersion.String,
    Kind := (env.GVKForObject obj).1.GroupKind.Kind,
    Namespace := GetNamespace obj, Name := GetName obj }

/-- The assumptions on the underlying store.  `get w k` is what a `Get` under
key `k` finds: the UID of the stored object, or `none` for not-found.
* `convert`: the converter keeps namespace, name and UID of the object;
* `create`: a `Create` that succeeds without dry-run stores the object under its
  key with the UID it populated, and touches no other key;
* `delete`: a `Delete` without dry-run of an existing object whose UID is the UID
  of the precondition in effect succeeds, removes that object, and touches no
  other key. -/
structure StoreContract {σ Obj Ctx : Type} (env : Underlying σ Obj Ctx)
    (get : σ → Key → Option String) (GetNamespace GetName GetUID : Obj → String) : Prop where
  convert : ∀ obj m, env.ToUnstructured obj = .ok m →
    getNestedString2 m "metadata" "namespace" = GetNamespace obj ∧
    getNestedString2 m "metadata" "name" = GetName obj ∧
    getNestedString2 m "metadata" "uid" = GetUID obj
  create : ∀ ctx w obj opts, CreateOption.DryRunAll ∉ opts →
    (env.Create ctx w obj opts).2.2 = none →
    get (env.Create ctx w obj opts).1
        (objKey env GetNamespace GetName (env.Create ctx w obj opts).2.1)
      = some (GetUID (env.Create ctx w obj opts).2.1) ∧
    ∀ k, k ≠ objKey env GetNamespace GetName (env.Create ctx w obj opts).2.1 →
      get (env.Create ctx w obj opts).1 k = get w k
  delete : ∀ ctx w u opts uid, DeleteOption.DryRunAll ∉ opts →
    get w (keyOf u) = some uid →
    lastPrecondition opts = some { UID := some uid, ResourceVersion := none } →
    (env.Delete ctx w u opts).2 = none ∧
    get (env.Delete ctx w u opts).1 (keyOf u) = none ∧
    ∀ k, k ≠ keyOf u → get (env.Delete ctx w u opts).1 k = get w k

/-! ## An in-memory store

A small underlying client used to run the wrapper on concrete inputs: typed
objects with a Go type, a scheme from Go types to group/version/kind on the
side of the client, and a store from keys to UIDs. -/

/-- A typed object: its Go type, its `TypeMeta` and the identifying part of its
`ObjectMeta`. -/
structure TypedObject where
  GoType : String
  Kind : String
  APIVersion : String
  Namespace : String
  Name : String
  UID : String
deriving DecidableEq, Repr

/-- The in-memory store: the stored UID per key, and the counter from which
UIDs are made. -/
structure MemStore where
  stored : Key → Option String
  nextUID : Nat

/-- Scheme lookup of a Go type. -/
def schemeLookup (goType : String) : List (String × GroupVersionKind) → Option GroupVersionKind
  | [] => none
  | (t, gvk) :: rest => if t = goType then some gvk else schemeLookup goType rest

/-- The converter on typed objects: kind and apiVersion when set, and the
metadata. -/
def memToUnstructured (obj : TypedObject) : Except GoError Object :=
  let metadata : Object := [("name", .str obj.Name), ("namespace", .str obj.Namespace),
    ("uid", .str obj.UID)]
  let kind : Object := if obj.Kind = "" then [] else [("kind", .str obj.Kind)]
  let version : Object := if obj.APIVersion = "" then [] else [("apiVersion", .str obj.APIVersion)]
  .ok (kind ++ version ++ [("metadata", .map metadata)])

/-- The function `GVKForObject` against a scheme: the registered
group/version/kind, or the zero value and an error. -/
def memGVKForObject (scheme : List (String × GroupVersionKind)) (obj : TypedObject) :
    GroupVersionKind × Option GoError :=
  match schemeLookup obj.GoType scheme with
  | some gvk => (gvk, none)
  | none => ({ Group := "", Version := "", Kind := "" },
      some (.leaf ("no kind is registered for the type " ++ obj.GoType)))

/-- The key of a typed object under a scheme. -/
def memKey (scheme : List (String × GroupVersionKind)) (obj : TypedObject) : Key :=
  { APIVersion := (memGVKForObject scheme obj).1.GroupVersion.String,
    Kind := (memGVKForObject scheme obj).1.GroupKind.Kind,
    Namespace := obj.Namespace, Name := obj.Name }

/-- Create through a client with the given scheme: the type has to be
registered and the key free; the object gets a fresh UID and comes back with its `TypeMeta` blank; a
dry run stores nothing. -/
def memCreate (scheme : List (String × GroupVersionKind)) (w : MemStore) (obj : TypedObject)
    (opts : List CreateOption) : MemStore × TypedObject × Option GoError :=
  match memGVKForObject scheme obj with
  | (_, some err) => (w, obj, some err)
  | (_, none) =>
    match w.stored (memKey scheme obj) with
    | some _ => (w, obj, some (.leaf (obj.Name ++ " already exists")))
    | none =>
      let obj1 : TypedObject :=
        { obj with Kind := "", APIVersion := "", UID := "uid-" ++ toString w.nextUID }
      if CreateOption.DryRunAll ∈ opts then (w, obj1, none)
      else
        ({ stored := fun k => if k = memKey scheme obj then some obj1.UID else w.stored k,
           nextUID := w.nextUID + 1 }, obj1, none)

/-- Delete on the in-memory store: not-found for an absent key, a conflict when
the UID of the precondition in effect differs from the stored one, removal
otherwise; a dry run removes nothing. -/
def memDelete (w : MemStore) (u : Unstructured) (opts : List DeleteOption) :
    MemStore × Option GoError :=
  match w.stored (keyOf u) with
  | none => (w, some (.leaf (u.GetName ++ " not found")))
  | some uid =>
    match lastPrecondition opts with
    | some { UID := some want, ResourceVersion := _ } =>
      if want = uid then
        if DeleteOption.DryRunAll ∈ opts then (w, none)
        else ({ w with stored := fun k => if k = keyOf u then none else w.stored k }, none)
      else (w, some (.leaf ("the UID in the precondition (" ++ want ++
        ") does not match the UID in record (" ++ uid ++ ")")))
    | _ =>
      if DeleteOption.DryRunAll ∈ opts then (w, none)
      else ({ w with stored := fun k => if k = keyOf u then none else w.stored k }, none)

/-- The in-memory store as an underlying client for a scheme. -/
def memClient (scheme : List (String × GroupVersionKind)) : Underlying MemStore TypedObject Unit :=
  { Create := fun _ w obj opts => memCreate scheme w obj opts,
    Delete := fun _ w u opts => memDelete w u opts,
    ToUnstructured := memToUnstructured,
    GVKForObject := memGVKForObject scheme }

/-- A scheme with the core `ConfigMap` and `Secret` and the `apps` `Deployment`. -/
def coreScheme : List (String × GroupVersionKind) :=
  [("ConfigMap", { Group := "", Version := "v1", Kind := "ConfigMap" }),
   ("Secret", { Group := "", Version := "v1", Kind := "Secret" }),
   ("Deployment", { Group := "apps", Version := "v1", Kind := "Deployment" })]

/-- An empty in-memory store. -/
def emptyStore : MemStore :=
  { stored := fun _ => none, nextUID := 0 }

/-- An underlying client that creates through the core scheme while the scheme
it hands to `GVKForObject` has no type registered. -/
def staleSchemeClient : Underlying MemStore TypedObject Unit :=
  { memClient coreScheme with GVKForObject := memGVKForObject [] }

/-- The ConfigMap `default/test` of the test. -/
def cmTest : TypedObject :=
  { GoType := "ConfigMap", Kind := "", APIVersion := "", Namespace := "default", Name := "test",
    UID := "" }

/-- The Secret `default/test-secret` of the scenario. -/
def secretTest : TypedObject :=
  { GoType := "Secret", Kind := "", APIVersion := "", Namespace := "default",
    Name := "test-secret", UID := "" }

/-- A fresh wrapper over the empty in-memory store. -/
def freshClient : trackedClient MemStore :=
  { WithWatch := emptyStore, tracker := [] }

/-- The wrapper after `Create` of the ConfigMap on a fresh wrapper. -/
def oneTracked : trackedClient MemStore :=
  (Create (memClient coreScheme) freshClient () cmTest []).client

/-- The wrapper after `Create` of the ConfigMap and of the Secret on a fresh
wrapper. -/
def twoTracked : trackedClient MemStore :=
  (runCreates (memClient coreScheme) () freshClient [(cmTest, []), (secretTest, [])]).1

/-- The wrapper of `twoTracked` after both objects were removed from the store
behind its back. -/
def goneClient : trackedClient MemStore :=
  { twoTracked with WithWatch := emptyStore }

/-- A UID precondition as an option. -/
def uidPrecondition (uid : String) : DeleteOption :=
  .Preconditions { UID := some uid, ResourceVersion := none }

/-! ## Maps and documents -/

theorem mapGet_mapSet_same (k : String) (v : Value) (m : Object) :
    mapGet k (mapSet k v m) = some v := by
  induction m with
  | nil => simp [mapSet, mapGet]
  | cons kv rest ih =>
    obtain ⟨k1, v1⟩ := kv
    by_cases h : k1 = k
    · simp [mapSet, mapGet, h]
    · simp [mapSet, mapGet, h, ih]

theorem mapGet_mapSet_ne (k k2 : String) (v : Value) (m : Object) (hne : k ≠ k2) :
    mapGet k2 (mapSet k v m) = mapGet k2 m := by
  induction m with
  | nil => simp [mapSet, mapGet, hne]
  | cons kv rest ih =>
    obtain ⟨k1, v1⟩ := kv
    by_cases h : k1 = k
    · subst h
      simp [mapSet, mapGet, hne]
    · by_cases h2 : k1 = k2
      · subst h2
        simp [mapSet, mapGet, h]
      · simp [mapSet, mapGet, h, h2, ih]

/-- The object of a snapshot: the converted document with both fields set. -/
theorem snapshot_kind (m : Object) (kind version : String) :
    mapGet "kind" (((Unstructured.mk m).SetKind kind).SetAPIVersion version).Object
      = some (.str kind) := by
  simp only [Unstructured.SetKind, Unstructured.SetAPIVersion]
  rw [mapGet_mapSet_ne _ _ _ _ (by decide), mapGet_mapSet_same]

theorem snapshot_apiVersion (m : Object) (kind version : String) :
    mapGet "apiVersion" (((Unstructured.mk m).SetKind kind).SetAPIVersion version).Object
      = some (.str version) := by
  simp only [Unstructured.SetKind, Unstructured.SetAPIVersion]
  rw [mapGet_mapSet_same]

theorem snapshot_other (m : Object) (kind version k : String) (h1 : k ≠ "kind")
    (h2 : k ≠ "apiVersion") :
    mapGet k (((Unstructured.mk m).SetKind kind).SetAPIVersion version).Object = mapGet k m := by
  simp only [Unstructured.SetKind, Unstructured.SetAPIVersion]
  rw [mapGet_mapSet_ne _ _ _ _ (Ne.symm h2), mapGet_mapSet_ne _ _ _ _ (Ne.symm h1)]

theorem snapshot_nested (m : Object) (kind version f : String) :
    getNestedString2 (((Unstructured.mk m).SetKind kind).SetAPIVersion version).Object
      "metadata" f = getNestedString2 m "metadata" f := by
  unfold getNestedString2
  rw [snapshot_other m kind version "metadata" (by decide) (by decide)]

/-! ## Create -/

theorem Create_of_underlying_error {σ Obj Ctx : Type} (env : Underlying σ Obj Ctx)
    (c : trackedClient σ) (ctx : Ctx) (obj : Obj) (opts : List CreateOption) (e : GoError)
    (h : (env.Create ctx c.WithWatch obj opts).2.2 = some e) :
    Create env c ctx obj opts =
      { client := { c with WithWatch := (env.Create ctx c.WithWatch obj opts).1 },
        obj := (env.Create ctx c.WithWatch obj opts).2.1, err := some e } := by
  unfold Create
  generalize env.Create ctx c.WithWatch obj opts = r at h
  obtain ⟨w, obj1, r⟩ := r
  simp only at h
  subst h
  rfl

theorem Create_of_converted {σ Obj Ctx : Type} (env : Underlying σ Obj Ctx)
    (c : trackedClient σ) (ctx : Ctx) (obj : Obj) (opts : List CreateOption) (m : Object)
    (hc : (env.Create ctx c.WithWatch obj opts).2.2 = none)
    (hu : env.ToUnstructured (env.Create ctx c.WithWatch obj opts).2.1 = .ok m) :
    Create env c ctx obj opts =
      { client :=
          { WithWatch := (env.Create ctx c.WithWatch obj opts).1,
            tracker := c.tracker ++
              [((Unstructured.mk m).SetKind
                  (env.GVKForObject
                    (env.Create ctx c.WithWatch obj opts).2.1).1.GroupKind.Kind).SetAPIVersion
                (env.GVKForObject
                  (env.Create ctx c.WithWatch obj opts).2.1).1.GroupVersion.String] },
        obj := (env.Create ctx c.WithWatch obj opts).2.1, err := none } := by
  unfold Create
  generalize env.Create ctx c.WithWatch obj opts = r at hc hu
  obtain ⟨w, obj1, r⟩ := r
  simp only at hc hu
  subst hc
  simp only [hu]

theorem Create_of_convert_error {σ Obj Ctx : Type} (env : Underlying σ Obj Ctx)
    (c : trackedClient σ) (ctx : Ctx) (obj : Obj) (opts : List CreateOption) (e : GoError)
    (hc : (env.Create ctx c.WithWatch obj opts).2.2 = none)
    (hu : env.ToUnstructured (env.Create ctx c.WithWatch obj opts).2.1 = .error e) :
    (Create env c ctx obj opts).err = some e := by
  unfold Create
  generalize env.Create ctx c.WithWatch obj opts = r at hc hu
  obtain ⟨w, obj1, r⟩ := r
  simp only at hc hu
  subst hc
  simp only [hu]

/-- What a `Create` that returns nil did: the underlying `Create` succeeded, the
populated object has a snapshot, and the snapshot is appended. -/
theorem Create_ok_inv {σ Obj Ctx : Type} (env : Underlying σ Obj Ctx)
    (c : trackedClient σ) (ctx : Ctx) (obj : Obj) (opts : List CreateOption)
    (h : (Create env c ctx obj opts).err = none) :
    (env.Create ctx c.WithWatch obj opts).2.2 = none ∧
    (Create env c ctx obj opts).obj = (env.Create ctx c.WithWatch obj opts).2.1 ∧
    (Create env c ctx obj opts).client.WithWatch = (env.Create ctx c.WithWatch obj opts).1 ∧
    ∃ u, snapshotOf env (Create env c ctx obj opts).obj = some u ∧
      (Create env c ctx obj opts).client.tracker = c.tracker ++ [u] := by
  cases hc : (env.Create ctx c.WithWatch obj opts).2.2 with
  | some e =>
    rw [Create_of_underlying_error env c ctx obj opts e hc] at h
    simp at h
  | none =>
    cases hu : env.ToUnstructured (env.Create ctx c.WithWatch obj opts).2.1 with
    | error e =>
      rw [Create_of_convert_error env c ctx obj opts e hc hu] at h
      simp at h
    | ok m =>
      rw [Create_of_converted env c ctx obj opts m hc hu]
      refine ⟨rfl, rfl, rfl, _, ?_, rfl⟩
      simp only [snapshotOf, hu]

theorem runCreates_spec {σ Obj Ctx : Type} (env : Underlying σ Obj Ctx) (ctx : Ctx)
    (reqs : List (Obj × List CreateOption)) : ∀ c : trackedClient σ,
    (∀ r ∈ (runCreates env ctx c reqs).2, r.2 = none) →
    (runCreates env ctx c reqs).2.length = reqs.length ∧
    (runCreates env ctx c reqs).1.tracker.map some
      = c.tracker.map some ++ (runCreates env ctx c reqs).2.map (fun r => snapshotOf env r.1) := by
  induction reqs with
  | nil =>
    intro c _
    simp [runCreates]
  | cons req rest ih =>
    intro c hok
    obtain ⟨obj, opts⟩ := req
    simp only [runCreates, List.mem_cons, forall_eq_or_imp] at hok ⊢
    obtain ⟨h0, hrest⟩ := hok
    obtain ⟨_, _, _, u, hu, ht⟩ := Create_ok_inv env c ctx obj opts h0
    obtain ⟨hl, hm⟩ := ih _ hrest
    refine ⟨by simp [hl], ?_⟩
    rw [hm, ht, List.map_cons, hu]
    simp

/-! ## The loop of DeleteAllTracked -/

theorem loopBody_eq {σ Obj Ctx : Type} (env : Underlying σ Obj Ctx) (ctx : Ctx)
    (st : LoopState σ) (obj : Unstructured) :
    loopBody env ctx st obj =
      { WithWatch := (env.Delete ctx st.WithWatch obj (st.opts ++ [preconditionOf obj])).1,
        opts := st.opts ++ [preconditionOf obj],
        errs := st.errs ++
          (env.Delete ctx st.WithWatch obj (st.opts ++ [preconditionOf obj])).2.toList,
        calls := st.calls ++
          [{ obj := obj, opts := st.opts ++ [preconditionOf obj],
             err := (env.Delete ctx st.WithWatch obj (st.opts ++ [preconditionOf obj])).2 }] } := by
  unfold loopBody preconditionOf
  simp only
  generalize env.Delete ctx st.WithWatch obj _ = r
  obtain ⟨w, e⟩ := r
  cases e <;> simp

/-- The loop over a tracker `T` from the state `st`: it adds one call per entry
of `T`, in order, the errors are the errors of those calls, the underlying
client went through exactly those calls, and the options of call `i` are the
incoming options followed by the preconditions of the entries `0..i`. -/
theorem deleteLoop_spec {σ Obj Ctx : Type} (env : Underlying σ Obj Ctx) (ctx : Ctx)
    (T : List Unstructured) : ∀ st : LoopState σ, ∃ ds : List DeleteCall,
      (deleteLoop env ctx T st).calls = st.calls ++ ds ∧
      ds.map (fun d => d.obj) = T ∧
      (deleteLoop env ctx T st).errs = st.errs ++ ds.filterMap (fun d => d.err) ∧
      replayDeletes env ctx st.WithWatch (ds.map (fun d => (d.obj, d.opts)))
        = ((deleteLoop env ctx T st).WithWatch, ds.map (fun d => d.err)) ∧
      (∀ i d, ds[i]? = some d → d.opts = st.opts ++ (T.take (i + 1)).map preconditionOf) := by
  induction T with
  | nil =>
    intro st
    exact ⟨[], by simp [deleteLoop], rfl, by simp [deleteLoop], rfl, by simp⟩
  | cons u T ih =>
    intro st
    obtain ⟨ds, h1, h2, h3, h4, h5⟩ := ih (loopBody env ctx st u)
    simp only [deleteLoop]
    generalize deleteLoop env ctx T (loopBody env ctx st u) = fin at h1 h3 h4 h5 ⊢
    rw [loopBody_eq] at h1 h3 h4 h5
    simp only at h1 h3 h4 h5
    refine ⟨{ obj := u, opts := st.opts ++ [preconditionOf u],
              err := (env.Delete ctx st.WithWatch u (st.opts ++ [preconditionOf u])).2 } :: ds,
            ?_, ?_, ?_, ?_, ?_⟩
    · rw [h1]
      simp
    · simp [h2]
    · rw [h3]
      cases (env.Delete ctx st.WithWatch u (st.opts ++ [preconditionOf u])).2 <;> simp
    · simp only [List.map_cons, replayDeletes]
      rw [h4]
    · intro i d hd
      cases i with
      | zero =>
        simp only [List.getElem?_cons_zero, Option.some.injEq] at hd
        subst hd
        simp
      | succ j =>
        simp only [List.getElem?_cons_succ] at hd
        rw [h5 j d hd]
        simp

theorem lastPrecondition_append_preconditions (opts : List DeleteOption) (p : Preconditions) :
    lastPrecondition (opts ++ [DeleteOption.Preconditions p]) = some p := by
  simp [lastPrecondition, List.filterMap_append, DeleteOption.asPreconditions]

theorem lastPrecondition_of_call (opts : List DeleteOption) (T : List Unstructured) (i : Nat)
    (u : Unstructured) (hu : T[i]? = some u) :
    lastPrecondition (opts ++ (T.take (i + 1)).map preconditionOf)
      = some { UID := some u.GetUID, ResourceVersion := none } := by
  have hi : i < T.length := by
    rcases Nat.lt_or_ge i T.length with h | h
    · exact h
    · rw [List.getElem?_eq_none h] at hu
      cases hu
  have hT : T.take (i + 1) = T.take i ++ [u] := by
    rw [List.take_succ, hu]
    rfl
  rw [hT, List.map_append, ← List.append_assoc]
  exact lastPrecondition_append_preconditions _ _

/-- The `Delete` calls of `DeleteAllTracked`, the errors it collected and the
option lists, in terms of the tracker. -/
theorem DeleteAllTracked_spec {σ Obj Ctx : Type} (env : Underlying σ Obj Ctx)
    (c : trackedClient σ) (ctx : Ctx) (opts : List DeleteOption) :
    ((DeleteAllTracked env c ctx opts).calls.map (fun d => d.obj) = c.tracker) ∧
    (DeleteAllTracked env c ctx opts).err
      = totalError ((DeleteAllTracked env c ctx opts).calls.filterMap (fun d => d.err)) ∧
    replayDeletes env ctx c.WithWatch
        ((DeleteAllTracked env c ctx opts).calls.map (fun d => (d.obj, d.opts)))
      = ((DeleteAllTracked env c ctx opts).client.WithWatch,
         (DeleteAllTracked env c ctx opts).calls.map (fun d => d.err)) ∧
    (∀ (i : Nat) (d : DeleteCall), (DeleteAllTracked env c ctx opts).calls[i]? = some d →
      d.opts = opts ++ (c.tracker.take (i + 1)).map preconditionOf) := by
  obtain ⟨ds, h1, h2, h3, h4, h5⟩ := deleteLoop_spec env ctx c.tracker
    { WithWatch := c.WithWatch, opts := opts, errs := [], calls := [] }
  simp only [List.nil_append] at h1 h3 h4 h5
  have hcalls : (DeleteAllTracked env c ctx opts).calls = ds := h1
  have herr : (DeleteAllTracked env c ctx opts).err
      = totalError (ds.filterMap (fun d => d.err)) := by
    rw [← h3]
    rfl
  rw [hcalls, herr]
  exact ⟨h2, rfl, h4, h5⟩

/-! ## Chaining the errors -/

theorem Errorf_w_s_Error (e : GoError) (msg : String) :
    (Errorf_w_s e msg).Error = e.Error ++ "; " ++ msg := rfl

theorem Errorf_w_s_Unwrap (e : GoError) (msg : String) :
    (Errorf_w_s e msg).Unwrap = some e := rfl

theorem chainErrors_Error (rest : List GoError) : ∀ t : GoError,
    (chainErrors t rest).Error = t.Error ++ joinedTail rest := by
  induction rest with
  | nil =>
    intro t
    simp [chainErrors, joinedTail]
  | cons e rest ih =>
    intro t
    simp only [chainErrors, joinedTail]
    rw [ih, Errorf_w_s_Error]
    simp only [String.append_assoc]

theorem unwrapN_succ_right (n : Nat) : ∀ e : GoError,
    unwrapN (n + 1) e = (unwrapN n e).bind GoError.Unwrap := by
  induction n with
  | zero =>
    intro e
    simp [unwrapN]
  | succ n ih =>
    intro e
    rw [unwrapN]
    cases h : e.Unwrap with
    | none => simp [unwrapN, h]
    | some e2 =>
      simp only [Option.some_bind]
      rw [ih e2]
      conv_rhs => rw [unwrapN]
      simp [h]

theorem chainErrors_unwrap (rest : List GoError) : ∀ t : GoError,
    unwrapN rest.length (chainErrors t rest) = some t := by
  induction rest with
  | nil =>
    intro t
    simp [chainErrors, unwrapN]
  | cons e rest ih =>
    intro t
    simp only [chainErrors, List.length_cons]
    rw [unwrapN_succ_right, ih, Option.some_bind, Errorf_w_s_Unwrap]

theorem totalError_eq_none (errs : List GoError) : totalError errs = none ↔ errs = [] := by
  cases errs <;> simp [totalError]

/-! ## The wrapper over a store that honours the contract -/

theorem snapshotOf_key {σ Obj Ctx : Type} (env : Underlying σ Obj Ctx)
    (get : σ → Key → Option String) (GetNamespace GetName GetUID : Obj → String)
    (hstore : StoreContract env get GetNamespace GetName GetUID) (obj : Obj) (u : Unstructured)
    (h : snapshotOf env obj = some u) :
    keyOf u = objKey env GetNamespace GetName obj ∧ u.GetUID = GetUID obj := by
  unfold snapshotOf at h
  cases hm : env.ToUnstructured obj with
  | error e => simp [hm] at h
  | ok m =>
    simp only [hm, Option.some.injEq] at h
    obtain ⟨hns, hname, huid⟩ := hstore.convert obj m hm
    subst h
    constructor
    · simp only [keyOf, objKey, Unstructured.GetAPIVersion, Unstructured.GetKind,
        Unstructured.GetNamespace, Unstructured.GetName, getNestedString1, snapshot_kind,
        snapshot_apiVersion, snapshot_nested, hns, hname]
    · simp only [Unstructured.GetUID, snapshot_nested, huid]

/-- A run of creates that all return nil, without dry-run, with pairwise
distinct keys: the keys of the tracker are the keys of the created objects, and
every tracked snapshot is in the store under its key with its UID. -/
theorem runCreates_store {σ Obj Ctx : Type} (env : Underlying σ Obj Ctx)
    (get : σ → Key → Option String) (GetNamespace GetName GetUID : Obj → String)
    (hstore : StoreContract env get GetNamespace GetName GetUID) (ctx : Ctx)
    (reqs : List (Obj × List CreateOption)) : ∀ c : trackedClient σ,
    (∀ req ∈ reqs, CreateOption.DryRunAll ∉ req.2) →
    (∀ r ∈ (runCreates env ctx c reqs).2, r.2 = none) →
    (c.tracker.map keyOf ++ (runCreates env ctx c reqs).2.map
      (fun r => objKey env GetNamespace GetName r.1)).Nodup →
    (∀ u ∈ c.tracker, get c.WithWatch (keyOf u) = some u.GetUID) →
    (runCreates env ctx c reqs).1.tracker.map keyOf
      = c.tracker.map keyOf ++ (runCreates env ctx c reqs).2.map
          (fun r => objKey env GetNamespace GetName r.1) ∧
    (∀ u ∈ (runCreates env ctx c reqs).1.tracker,
      get (runCreates env ctx c reqs).1.WithWatch (keyOf u) = some u.GetUID) := by
  induction reqs with
  | nil =>
    intro c _ _ _ hpres
    simpa [runCreates] using hpres
  | cons req rest ih =>
    intro c hdry hok hnodup hpres
    obtain ⟨obj, opts⟩ := req
    simp only [runCreates, List.mem_cons, forall_eq_or_imp, List.map_cons] at hdry hok hnodup ⊢
    obtain ⟨hdry0, hdryrest⟩ := hdry
    obtain ⟨h0, hokrest⟩ := hok
    obtain ⟨hc, hobj, hw, u, hu, ht⟩ := Create_ok_inv env c ctx obj opts h0
    obtain ⟨hkey, huid⟩ := snapshotOf_key env get GetNamespace GetName GetUID hstore _ u hu
    obtain ⟨hput, hkeep⟩ := hstore.create ctx c.WithWatch obj opts hdry0 hc
    rw [← hobj, ← hw] at hput hkeep
    rw [← hkey] at hnodup
    have hnodup2 : ((Create env c ctx obj opts).client.tracker.map keyOf ++
        (runCreates env ctx (Create env c ctx obj opts).client rest).2.map
          (fun r => objKey env GetNamespace GetName r.1)).Nodup := by
      rw [ht, List.map_append, List.append_assoc]
      exact hnodup
    have hpres2 : ∀ v ∈ (Create env c ctx obj opts).client.tracker,
        get (Create env c ctx obj opts).client.WithWatch (keyOf v) = some v.GetUID := by
      intro v hv
      rw [ht, List.mem_append, List.mem_singleton] at hv
      rcases hv with hv | hv
      · have hne : keyOf v ≠
            objKey env GetNamespace GetName (Create env c ctx obj opts).obj := by
          rw [← hkey]
          intro heq
          have h1 : keyOf v ∈ c.tracker.map keyOf := List.mem_map_of_mem keyOf hv
          rw [List.nodup_append] at hnodup
          exact hnodup.2.2 h1 (by rw [heq]; exact List.mem_cons_self _ _)
        rw [hkeep _ hne]
        exact hpres v hv
      · subst hv
        rw [hkey, hput, huid]
    obtain ⟨ih1, ih2⟩ := ih _ hdryrest hokrest hnodup2 hpres2
    refine ⟨?_, ih2⟩
    rw [ih1, ht, List.map_append, List.append_assoc, ← hkey]
    rfl

/-- The loop over snapshots with pairwise distinct keys that are all in the
store with their UID, from options without dry-run: no error is added, every
snapshot is gone afterwards, and no other key is touched. -/
theorem deleteLoop_store {σ Obj Ctx : Type} (env : Underlying σ Obj Ctx)
    (get : σ → Key → Option String) (GetNamespace GetName GetUID : Obj → String)
    (hstore : StoreContract env get GetNamespace GetName GetUID) (ctx : Ctx)
    (T : List Unstructured) : ∀ st : LoopState σ,
    (T.map keyOf).Nodup →
    (∀ u ∈ T, get st.WithWatch (keyOf u) = some u.GetUID) →
    DeleteOption.DryRunAll ∉ st.opts →
    (deleteLoop env ctx T st).errs = st.errs ∧
    (∀ u ∈ T, get (deleteLoop env ctx T st).WithWatch (keyOf u) = none) ∧
    (∀ k, k ∉ T.map keyOf →
      get (deleteLoop env ctx T st).WithWatch k = get st.WithWatch k) := by
  induction T with
  | nil =>
    intro st _ _ _
    simp [deleteLoop]
  | cons u T ih =>
    intro st hnodup hpres hdry
    simp only [List.map_cons, List.nodup_cons] at hnodup
    obtain ⟨hnotin, hnodupT⟩ := hnodup
    have hdry1 : DeleteOption.DryRunAll ∉ st.opts ++ [preconditionOf u] := by
      simp [hdry, preconditionOf]
    have hlast : lastPrecondition (st.opts ++ [preconditionOf u])
        = some { UID := some u.GetUID, ResourceVersion := none } :=
      lastPrecondition_append_preconditions _ _
    obtain ⟨hnil, hgone, hkeep⟩ := hstore.delete ctx st.WithWatch u
      (st.opts ++ [preconditionOf u]) u.GetUID hdry1 (hpres u (List.mem_cons_self _ _)) hlast
    have hpres1 : ∀ v ∈ T, get (loopBody env ctx st u).WithWatch (keyOf v) = some v.GetUID := by
      intro v hv
      rw [loopBody_eq]
      simp only
      have hne : keyOf v ≠ keyOf u := by
        intro heq
        exact hnotin (heq ▸ List.mem_map_of_mem keyOf hv)
      rw [hkeep _ hne]
      exact hpres v (List.mem_cons_of_mem _ hv)
    have hdry2 : DeleteOption.DryRunAll ∉ (loopBody env ctx st u).opts := by
      rw [loopBody_eq]
      exact hdry1
    obtain ⟨ih1, ih2, ih3⟩ := ih (loopBody env ctx st u) hnodupT hpres1 hdry2
    simp only [deleteLoop]
    refine ⟨?_, ?_, ?_⟩
    · rw [ih1, loopBody_eq]
      simp [hnil]
    · intro v hv
      rw [List.mem_cons] at hv
      rcases hv with hv | hv
      · subst hv
        rw [ih3 _ hnotin, loopBody_eq]
        exact hgone
      · exact ih2 v hv
    · intro k hk
      simp only [List.map_cons, List.mem_cons, not_or] at hk
      rw [ih3 k hk.2, loopBody_eq]
      exact hkeep k hk.1

/-- The in-memory store honours the contract. -/
theorem memClient_contract (scheme : List (String × GroupVersionKind)) :
    StoreContract (memClient scheme) (fun w k => w.stored k) TypedObject.Namespace
      TypedObject.Name TypedObject.UID where
  convert := by
    intro obj m hm
    simp only [memClient, memToUnstructured, Except.ok.injEq] at hm
    subst hm
    by_cases hk : obj.Kind = "" <;> by_cases hv : obj.APIVersion = "" <;>
      simp [hk, hv, getNestedString2, mapGet]
  create := by
    intro ctx w obj opts hdry hok
    simp only [memClient, objKey] at hok ⊢
    unfold memCreate at hok ⊢
    cases hg : memGVKForObject scheme obj with
    | mk gvk e =>
      cases e with
      | some err => simp [hg] at hok
      | none =>
        simp only [hg] at hok ⊢
        cases hs : w.stored (memKey scheme obj) with
        | some x => simp [hs] at hok
        | none =>
          have hkey : ∀ (k2 a2 u2 : String),
              ({ APIVersion := (memGVKForObject scheme
                    { obj with Kind := k2, APIVersion := a2, UID := u2 }).1.GroupVersion.String,
                 Kind := (memGVKForObject scheme
                    { obj with Kind := k2, APIVersion := a2, UID := u2 }).1.GroupKind.Kind,
                 Namespace := obj.Namespace, Name := obj.Name } : Key) = memKey scheme obj := by
            intro k2 a2 u2
            rfl
          simp only [hs, hdry, if_false, hkey]
          constructor
          · simp
          · intro k hk
            simp [hk]
  delete := by
    intro ctx w u opts uid hdry hget hlast
    simp only [memClient]
    unfold memDelete
    have hget2 : w.stored (keyOf u) = some uid := hget
    simp only [hget2, hlast, hdry, if_true, if_false]
    refine ⟨trivial, trivial, ?_⟩
    intro k hk
    simp [hk]

/-! ## The claims -/

/-- C1: after N `Create` calls that all return nil on a fresh wrapper, one
`DeleteAllTracked` with any caller options makes exactly N underlying `Delete`
calls; the i-th call is on the snapshot of the i-th created object, and the
precondition in effect for it (the last one of its option list) carries the UID
of that snapshot, which is the UID in the converted document of the object. -/
theorem creates_then_deleteAllTracked_uid {σ Obj Ctx : Type} (env : Underlying σ Obj Ctx)
    (w0 : σ) (ctx : Ctx) (reqs : List (Obj × List CreateOption)) (opts : List DeleteOption)
    (hok : ∀ r ∈ (runCreates env ctx { WithWatch := w0, tracker := [] } reqs).2, r.2 = none) :
    (DeleteAllTracked env (runCreates env ctx { WithWatch := w0, tracker := [] } reqs).1
        ctx opts).calls.length = reqs.length ∧
    ∀ (i : Nat) (r : Obj × Option GoError),
      (runCreates env ctx { WithWatch := w0, tracker := [] } reqs).2[i]? = some r →
      ∃ (m : Object) (u : Unstructured) (d : DeleteCall),
        env.ToUnstructured r.1 = .ok m ∧ snapshotOf env r.1 = some u ∧
        u.GetUID = getNestedString2 m "metadata" "uid" ∧
        (DeleteAllTracked env (runCreates env ctx { WithWatch := w0, tracker := [] } reqs).1
          ctx opts).calls[i]? = some d ∧
        d.obj = u ∧
        lastPrecondition d.opts = some { UID := some u.GetUID, ResourceVersion := none } := by
  obtain ⟨hlen, htr⟩ := runCreates_spec env ctx reqs { WithWatch := w0, tracker := [] } hok
  simp only [List.map_nil, List.nil_append] at htr
  obtain ⟨ds, h1, h2, _, _, h5⟩ := deleteLoop_spec env ctx
    (runCreates env ctx { WithWatch := w0, tracker := [] } reqs).1.tracker
    { WithWatch := (runCreates env ctx { WithWatch := w0, tracker := [] } reqs).1.WithWatch,
      opts := opts, errs := [], calls := [] }
  simp only [List.nil_append] at h1 h5
  have hcalls : (DeleteAllTracked env
      (runCreates env ctx { WithWatch := w0, tracker := [] } reqs).1 ctx opts).calls = ds := h1
  rw [hcalls]
  constructor
  · have := congrArg List.length h2
    have h3 := congrArg List.length htr
    simp only [List.length_map] at this h3
    omega
  · intro i r hr
    have hsnap : ((runCreates env ctx { WithWatch := w0, tracker := [] } reqs).1.tracker.map
        some)[i]? = some (snapshotOf env r.1) := by
      rw [htr, List.getElem?_map, hr]
      rfl
    rw [List.getElem?_map] at hsnap
    cases hti : (runCreates env ctx { WithWatch := w0, tracker := [] } reqs).1.tracker[i]? with
    | none => simp [hti] at hsnap
    | some u =>
      have hsnap2 : snapshotOf env r.1 = some u := by
        rw [hti] at hsnap
        simpa using hsnap.symm
      have hdi : (ds.map (fun d => d.obj))[i]? = some u := by rw [h2, hti]
      rw [List.getElem?_map] at hdi
      cases hd : ds[i]? with
      | none => simp [hd] at hdi
      | some d =>
        have hdi2 : d.obj = u := by
          rw [hd] at hdi
          simpa using hdi
        cases hm : env.ToUnstructured r.1 with
        | error e => simp [snapshotOf, hm] at hsnap2
        | ok m =>
          refine ⟨m, u, d, rfl, hsnap2, ?_, rfl, hdi2, ?_⟩
          · have hu : u = ((Unstructured.mk m).SetKind
                (env.GVKForObject r.1).1.GroupKind.Kind).SetAPIVersion
                (env.GVKForObject r.1).1.GroupVersion.String := by
              simpa [snapshotOf, hm] using hsnap2.symm
            rw [hu]
            exact snapshot_nested m _ _ "uid"
          · rw [h5 i d hd]
            exact lastPrecondition_of_call opts _ i u hti

/-- Witness of C1 on the in-memory store: the ConfigMap and the Secret, and a
caller option list that already holds a UID precondition. -/
theorem creates_then_deleteAllTracked_uid_witness :
    (DeleteAllTracked (memClient coreScheme)
        (runCreates (memClient coreScheme) () { WithWatch := emptyStore, tracker := [] }
          [(cmTest, []), (secretTest, [])]).1
        () [uidPrecondition "other"]).calls.length = 2 ∧
    (DeleteAllTracked (memClient coreScheme)
        (runCreates (memClient coreScheme) () { WithWatch := emptyStore, tracker := [] }
          [(cmTest, []), (secretTest, [])]).1
        () [uidPrecondition "other"]).calls.map (fun d => lastPrecondition d.opts)
      = [some { UID := some "uid-0", ResourceVersion := none },
         some { UID := some "uid-1", ResourceVersion := none }] :=
  ⟨(creates_then_deleteAllTracked_uid (memClient coreScheme) emptyStore ()
      [(cmTest, []), (secretTest, [])] [uidPrecondition "other"] (by decide)).1, by decide⟩

/-- C2: whatever the underlying deletes return, after `DeleteAllTracked` the
tracker is empty, and a `DeleteAllTracked` right after it makes no underlying
`Delete` call and returns nil. -/
theorem deleteAllTracked_clears_tracker {σ Obj Ctx : Type} (env : Underlying σ Obj Ctx)
    (c : trackedClient σ) (ctx ctx2 : Ctx) (opts opts2 : List DeleteOption) :
    (DeleteAllTracked env c ctx opts).client.tracker = [] ∧
    (DeleteAllTracked env (DeleteAllTracked env c ctx opts).client ctx2 opts2).calls = [] ∧
    (DeleteAllTracked env (DeleteAllTracked env c ctx opts).client ctx2 opts2).err = none := by
  simp [DeleteAllTracked, deleteLoop, totalError]

/-- C3: when the underlying `Create` returns the error `e`, the wrapper's
`Create` returns `e` and the tracker is what it was. -/
theorem create_error_propagated {σ Obj Ctx : Type} (env : Underlying σ Obj Ctx)
    (c : trackedClient σ) (ctx : Ctx) (obj : Obj) (opts : List CreateOption) (e : GoError)
    (h : (env.Create ctx c.WithWatch obj opts).2.2 = some e) :
    (Create env c ctx obj opts).err = some e ∧
    (Create env c ctx obj opts).client.tracker = c.tracker := by
  rw [Create_of_underlying_error env c ctx obj opts e h]
  exact ⟨rfl, rfl⟩

/-- Witness of C3: creating the ConfigMap a second time fails in the store; the
wrapper returns that error and keeps its one entry. -/
theorem create_error_propagated_witness :
    (Create (memClient coreScheme) oneTracked () cmTest []).err
      = some (.leaf "test already exists") ∧
    (Create (memClient coreScheme) oneTracked () cmTest []).client.tracker
      = oneTracked.tracker ∧
    oneTracked.tracker.length = 1 :=
  ⟨(create_error_propagated (memClient coreScheme) oneTracked () cmTest []
      (.leaf "test already exists") (by decide)).1,
   (create_error_propagated (memClient coreScheme) oneTracked () cmTest []
      (.leaf "test already exists") (by decide)).2, by decide⟩

/-- C4: when the underlying `Create` succeeds, the populated object converts to
the document `m` and the scheme resolves its group/version/kind `gvk`, the
wrapper's `Create` returns nil and the tracker is the old tracker followed by one
entry: `m` with `kind` set to the kind and `apiVersion` set to the group/version
string of `gvk`, every other field as in `m`. -/
theorem create_success_appends_snapshot {σ Obj Ctx : Type} (env : Underlying σ Obj Ctx)
    (c : trackedClient σ) (ctx : Ctx) (obj : Obj) (opts : List CreateOption) (m : Object)
    (gvk : GroupVersionKind)
    (hc : (env.Create ctx c.WithWatch obj opts).2.2 = none)
    (hu : env.ToUnstructured (env.Create ctx c.WithWatch obj opts).2.1 = .ok m)
    (hg : env.GVKForObject (env.Create ctx c.WithWatch obj opts).2.1 = (gvk, none)) :
    (Create env c ctx obj opts).err = none ∧
    ∃ u, (Create env c ctx obj opts).client.tracker = c.tracker ++ [u] ∧
      mapGet "kind" u.Object = some (.str gvk.Kind) ∧
      mapGet "apiVersion" u.Object = some (.str gvk.GroupVersion.String) ∧
      ∀ k, k ≠ "kind" → k ≠ "apiVersion" → mapGet k u.Object = mapGet k m := by
  rw [Create_of_converted env c ctx obj opts m hc hu, hg]
  refine ⟨rfl, _, rfl, ?_, ?_, ?_⟩
  · exact snapshot_kind m _ _
  · exact snapshot_apiVersion m _ _
  · intro k h1 h2
    exact snapshot_other m _ _ k h1 h2

/-- Witness of C4: the ConfigMap on a fresh wrapper over the empty store. -/
theorem create_success_appends_snapshot_witness :
    (Create (memClient coreScheme) freshClient () cmTest []).err = none ∧
    ∃ u, (Create (memClient coreScheme) freshClient () cmTest []).client.tracker
        = freshClient.tracker ++ [u] ∧
      mapGet "kind" u.Object = some (.str "ConfigMap") ∧
      mapGet "apiVersion" u.Object = some (.str "v1") ∧
      ∀ k, k ≠ "kind" → k ≠ "apiVersion" → mapGet k u.Object =
        mapGet k [("metadata", .map [("name", .str "test"), ("namespace", .str "default"),
          ("uid", .str "uid-0")])] :=
  create_success_appends_snapshot (memClient coreScheme) freshClient () cmTest []
    [("metadata", .map [("name", .str "test"), ("namespace", .str "default"),
      ("uid", .str "uid-0")])]
    { Group := "", Version := "v1", Kind := "ConfigMap" } (by decide) rfl rfl

/-- C5: `DeleteAllTracked` calls the underlying `Delete` once per snapshot of the
tracker, in the order of the tracker, whatever the calls return: the objects of
the calls are the tracker, and the underlying client went through exactly these
calls, each returning the recorded error. -/
theorem deleteAllTracked_attempts_every_snapshot {σ Obj Ctx : Type}
    (env : Underlying σ Obj Ctx) (c : trackedClient σ) (ctx : Ctx) (opts : List DeleteOption) :
    (DeleteAllTracked env c ctx opts).calls.map (fun d => d.obj) = c.tracker ∧
    (DeleteAllTracked env c ctx opts).calls.length = c.tracker.length ∧
    replayDeletes env ctx c.WithWatch
        ((DeleteAllTracked env c ctx opts).calls.map (fun d => (d.obj, d.opts)))
      = ((DeleteAllTracked env c ctx opts).client.WithWatch,
         (DeleteAllTracked env c ctx opts).calls.map (fun d => d.err)) := by
  obtain ⟨h1, _, h3, _⟩ := DeleteAllTracked_spec env c ctx opts
  refine ⟨h1, ?_, h3⟩
  have := congrArg List.length h1
  simpa using this

/-- C6: `DeleteAllTracked` returns nil exactly when no underlying `Delete` call
it made returned an error; on an empty tracker it returns nil. -/
theorem deleteAllTracked_nil_iff_no_failure {σ Obj Ctx : Type} (env : Underlying σ Obj Ctx)
    (c : trackedClient σ) (ctx : Ctx) (opts : List DeleteOption) (w : σ) :
    ((DeleteAllTracked env c ctx opts).err = none ↔
      ∀ d ∈ (DeleteAllTracked env c ctx opts).calls, d.err = none) ∧
    ((DeleteAllTracked env c ctx opts).err ≠ none ↔
      ∃ d ∈ (DeleteAllTracked env c ctx opts).calls, d.err ≠ none) ∧
    (DeleteAllTracked env { WithWatch := w, tracker := [] } ctx opts).err = none := by
  obtain ⟨_, h2, _, _⟩ := DeleteAllTracked_spec env c ctx opts
  have hiff : (DeleteAllTracked env c ctx opts).err = none ↔
      ∀ d ∈ (DeleteAllTracked env c ctx opts).calls, d.err = none := by
    rw [h2, totalError_eq_none, List.filterMap_eq_nil_iff]
  refine ⟨hiff, ?_, ?_⟩
  · rw [Ne, hiff]
    push_neg
    rfl
  · simp [DeleteAllTracked, deleteLoop, totalError]

/-- Witness of C6: with both tracked objects gone from the store, both deletes
fail and the result is not nil. -/
theorem deleteAllTracked_nil_iff_no_failure_witness :
    (DeleteAllTracked (memClient coreScheme) goneClient () []).err ≠ none :=
  fun h => absurd
    ((deleteAllTracked_nil_iff_no_failure (memClient coreScheme) goneClient () []
      emptyStore).1.mp h)
    (by decide)

/-- C7: when the failed deletes returned `e1` and then `rest`, in tracker order,
`DeleteAllTracked` returns an error whose message is the message of `e1`
followed by `"; "` and the message of each error of `rest` in order, and
unwrapping it once per error of `rest` gives `e1`; with no further error it is
`e1` itself. -/
theorem deleteAllTracked_error_chain {σ Obj Ctx : Type} (env : Underlying σ Obj Ctx)
    (c : trackedClient σ) (ctx : Ctx) (opts : List DeleteOption) (e1 : GoError)
    (rest : List GoError)
    (h : (DeleteAllTracked env c ctx opts).calls.filterMap (fun d => d.err) = e1 :: rest) :
    ∃ E : GoError, (DeleteAllTracked env c ctx opts).err = some E ∧
      E.Error = joinedMessage e1 rest ∧
      unwrapN rest.length E = some e1 ∧
      (rest = [] → E = e1) := by
  obtain ⟨_, h2, _, _⟩ := DeleteAllTracked_spec env c ctx opts
  rw [h] at h2
  refine ⟨chainErrors e1 rest, h2, chainErrors_Error rest e1, chainErrors_unwrap rest e1, ?_⟩
  intro hr
  subst hr
  rfl

/-- Witness of C7: with both tracked objects gone from the store the two
not-found errors are chained. -/
theorem deleteAllTracked_error_chain_witness :
    ∃ E : GoError, (DeleteAllTracked (memClient coreScheme) goneClient () []).err = some E ∧
      E.Error = "test not found; test-secret not found" ∧
      unwrapN 1 E = some (.leaf "test not found") := by
  obtain ⟨E, h1, h2, h3, _⟩ := deleteAllTracked_error_chain (memClient coreScheme) goneClient ()
    [] (.leaf "test not found") [.leaf "test-secret not found"] (by decide)
  exact ⟨E, h1, by rw [h2]; decide, h3⟩

/-- C8: over a store that honours the contract (in particular: a `Delete` of an
existing object whose UID is the UID of the precondition in effect removes it
and succeeds), when the creates of a list of objects with pairwise distinct keys
all return nil on a fresh wrapper, every created object is in the store, and
`DeleteAllTracked` without caller options returns nil, leaves the tracker empty,
and a `Get` under the key of each created object finds nothing. -/
theorem creates_then_deleteAllTracked_removes {σ Obj Ctx : Type} (env : Underlying σ Obj Ctx)
    (get : σ → Key → Option String) (GetNamespace GetName GetUID : Obj → String)
    (hstore : StoreContract env get GetNamespace GetName GetUID) (w0 : σ) (ctx : Ctx)
    (reqs : List (Obj × List CreateOption))
    (hdry : ∀ req ∈ reqs, CreateOption.DryRunAll ∉ req.2)
    (hok : ∀ r ∈ (runCreates env ctx { WithWatch := w0, tracker := [] } reqs).2, r.2 = none)
    (hdistinct : ((runCreates env ctx { WithWatch := w0, tracker := [] } reqs).2.map
      (fun r => objKey env GetNamespace GetName r.1)).Nodup) :
    (∀ r ∈ (runCreates env ctx { WithWatch := w0, tracker := [] } reqs).2,
      get (runCreates env ctx { WithWatch := w0, tracker := [] } reqs).1.WithWatch
        (objKey env GetNamespace GetName r.1) = some (GetUID r.1)) ∧
    (DeleteAllTracked env (runCreates env ctx { WithWatch := w0, tracker := [] } reqs).1
      ctx []).err = none ∧
    (DeleteAllTracked env (runCreates env ctx { WithWatch := w0, tracker := [] } reqs).1
      ctx []).client.tracker = [] ∧
    (∀ r ∈ (runCreates env ctx { WithWatch := w0, tracker := [] } reqs).2,
      get (DeleteAllTracked env (runCreates env ctx { WithWatch := w0, tracker := [] } reqs).1
        ctx []).client.WithWatch (objKey env GetNamespace GetName r.1) = none) := by
  obtain ⟨hkeys, hpres⟩ := runCreates_store env get GetNamespace GetName GetUID hstore ctx reqs
    { WithWatch := w0, tracker := [] } hdry hok (by simpa using hdistinct) (by simp)
  simp only [List.map_nil, List.nil_append] at hkeys
  obtain ⟨_, hsnaps⟩ := runCreates_spec env ctx reqs { WithWatch := w0, tracker := [] } hok
  simp only [List.map_nil, List.nil_append] at hsnaps
  obtain ⟨herrs, hgone, _⟩ := deleteLoop_store env get GetNamespace GetName GetUID hstore ctx
    (runCreates env ctx { WithWatch := w0, tracker := [] } reqs).1.tracker
    { WithWatch := (runCreates env ctx { WithWatch := w0, tracker := [] } reqs).1.WithWatch,
      opts := [], errs := [], calls := [] }
    (by rw [hkeys]; exact hdistinct) hpres (by simp)
  have htracked : ∀ r ∈ (runCreates env ctx { WithWatch := w0, tracker := [] } reqs).2,
      ∃ u ∈ (runCreates env ctx { WithWatch := w0, tracker := [] } reqs).1.tracker,
        keyOf u = objKey env GetNamespace GetName r.1 ∧ u.GetUID = GetUID r.1 := by
    intro r hr
    have hmem : snapshotOf env r.1 ∈
        (runCreates env ctx { WithWatch := w0, tracker := [] } reqs).1.tracker.map some := by
      rw [hsnaps]
      exact List.mem_map_of_mem (fun r => snapshotOf env r.1) hr
    obtain ⟨u, hu, hsnap⟩ := List.mem_map.mp hmem
    exact ⟨u, hu, snapshotOf_key env get GetNamespace GetName GetUID hstore r.1 u hsnap.symm⟩
  refine ⟨?_, ?_, rfl, ?_⟩
  · intro r hr
    obtain ⟨u, hu, hk, huid⟩ := htracked r hr
    rw [← hk, ← huid]
    exact hpres u hu
  · show totalError _ = none
    rw [herrs]
    rfl
  · intro r hr
    obtain ⟨u, hu, hk, _⟩ := htracked r hr
    rw [← hk]
    exact hgone u hu

/-- Witness of C8: the ConfigMap `default/test` and the Secret
`default/test-secret` on the in-memory store. -/
theorem creates_then_deleteAllTracked_removes_witness :
    (DeleteAllTracked (memClient coreScheme)
      (runCreates (memClient coreScheme) () { WithWatch := emptyStore, tracker := [] }
        [(cmTest, []), (secretTest, [])]).1 () []).err = none ∧
    (DeleteAllTracked (memClient coreScheme)
      (runCreates (memClient coreScheme) () { WithWatch := emptyStore, tracker := [] }
        [(cmTest, []), (secretTest, [])]).1 () []).client.tracker = [] ∧
    (∀ r ∈ (runCreates (memClient coreScheme) () { WithWatch := emptyStore, tracker := [] }
        [(cmTest, []), (secretTest, [])]).2,
      (DeleteAllTracked (memClient coreScheme)
        (runCreates (memClient coreScheme) () { WithWatch := emptyStore, tracker := [] }
          [(cmTest, []), (secretTest, [])]).1 () []).client.WithWatch.stored
        (objKey (memClient coreScheme) TypedObject.Namespace TypedObject.Name r.1) = none) :=
  (creates_then_deleteAllTracked_removes (memClient coreScheme) (fun w k => w.stored k)
    TypedObject.Namespace TypedObject.Name TypedObject.UID (memClient_contract coreScheme)
    emptyStore () [(cmTest, []), (secretTest, [])] (by decide) (by decide) (by decide)).2

/-- C9: the underlying `Create` succeeds and `GVKForObject` on the populated
object returns an error (the scheme of the client does not know the type), and
the wrapper's `Create` returns nil and tracks a snapshot with empty kind and
apiVersion. -/
theorem create_drops_gvk_error :
    (staleSchemeClient.Create () freshClient.WithWatch cmTest []).2.2 = none ∧
    (staleSchemeClient.GVKForObject (Create staleSchemeClient freshClient () cmTest []).obj).2
      = some (.leaf "no kind is registered for the type ConfigMap") ∧
    (Create staleSchemeClient freshClient () cmTest []).err = none ∧
    (Create staleSchemeClient freshClient () cmTest []).client.tracker.map
      (fun u => (u.GetKind, u.GetAPIVersion, u.GetName)) = [("", "", "test")] := by
  decide

/-- C10: with two tracked snapshots and no caller option, the second underlying
`Delete` gets two options: the precondition built for the first snapshot is
still in the list, before its own. -/
theorem deleteAllTracked_options_accumulate :
    (DeleteAllTracked (memClient coreScheme) twoTracked () []).calls.map (fun d => d.opts)
      = [[uidPrecondition "uid-0"], [uidPrecondition "uid-0", uidPrecondition "uid-1"]] ∧
    twoTracked.tracker.map (fun u => u.GetUID) = ["uid-0", "uid-1"] := by
  decide

end trackedclient
